import Mathlib

/-!
Verification development for the might-be-minified crate (src/lib.rs),
a heuristic detector for minified JavaScript source text.

Modelling conventions:
* Rust `f32` arithmetic is modelled as exact rational arithmetic over `ℚ`.
  Every numeric literal appearing in the source (0.5, 2.0, 20.0, 1000.0,
  0.1, 0.4, 0.2, 0.3) is exactly representable, and no claim below depends
  on rounding behaviour of `f32`.
* Rust `usize` values are modelled as `Nat`; the source never relies on
  wrap-around, and the absence of underflow in its subtractions is itself
  one of the verified properties.
* The regular expressions `BASIC_TOKEN_RE` and `IDENT_RE` are embedded as a
  character-level scanner implementing the leftmost-first match semantics of
  the Rust regex crate for this concrete alternation: at each scan position
  the branches (comment, whitespace, string, regex_op, keyword, ident) are
  tried in the order they appear in the pattern, the first branch that
  matches wins, and a position where no branch matches is skipped.
* Unicode character classes: the White_Space property used by
  `char::is_whitespace` and by the regex class `\s` is embedded exactly
  (it is a small finite set of code points).  The letter categories
  Lu/Ll/Lt/Lm/Lo/Nl of the identifier classes and the word-character class
  behind `\b` are embedded exactly on the ASCII range; beyond ASCII only
  the code points listed in `extraLetters` (each of which really carries
  Unicode category Ll) are classified as letters.  All concrete inputs
  used in this development stay inside that modelled alphabet.
* Rust `Vec::sort` (ascending, stable) is modelled by insertion sort; on
  lists of natural numbers the two agree element for element.
-/

namespace MightBeMinified

/-- The Unicode White_Space code points, the exact set behind the Rust
`char::is_whitespace` used by the layout scan in `analyze_str` and behind
the regex class `\s` of the whitespace branch of `BASIC_TOKEN_RE`. -/
def isWhitespaceChar (c : Char) : Bool :=
  (0x09 ≤ c.toNat && c.toNat ≤ 0x0d) || c.toNat == 0x20 || c.toNat == 0x85 ||
    c.toNat == 0xa0 || c.toNat == 0x1680 ||
    (0x2000 ≤ c.toNat && c.toNat ≤ 0x200a) || c.toNat == 0x2028 ||
    c.toNat == 0x2029 || c.toNat == 0x202f || c.toNat == 0x205f ||
    c.toNat == 0x3000

/-- ASCII uppercase letter (category Lu within ASCII). -/
def isAsciiUpper (c : Char) : Bool :=
  0x41 ≤ c.toNat && c.toNat ≤ 0x5a

/-- ASCII lowercase letter (category Ll within ASCII). -/
def isAsciiLower (c : Char) : Bool :=
  0x61 ≤ c.toNat && c.toNat ≤ 0x7a

/-- ASCII decimal digit (category Nd within ASCII). -/
def isAsciiDigit (c : Char) : Bool :=
  0x30 ≤ c.toNat && c.toNat ≤ 0x39

/-- The non-ASCII letters of the modelled alphabet.  Both code points carry
Unicode general category Ll, so they belong to the identifier classes
of `BASIC_TOKEN_RE` and `IDENT_RE`: U+00E9 (latin small letter e with
acute, UTF-8 size 2) and U+03BB (greek small letter lamda, UTF-8 size 2). -/
def extraLetters : List Char := ['é', 'λ']

/-- The identifier start class of `BASIC_TOKEN_RE` / `IDENT_RE`:
categories Lu, Ll, Lt, Lm, Lo, Nl plus the dollar sign and the low line,
embedded on the modelled alphabet (ASCII exactly, plus `extraLetters`). -/
def isIdentStart (c : Char) : Bool :=
  isAsciiUpper c || isAsciiLower c || c == '$' || c == '_' ||
    extraLetters.contains c

/-- The identifier continuation class: the start class plus categories
Mn, Mc, Nd, Pc.  On the modelled alphabet that adds exactly the ASCII
digits (ASCII has no Mn/Mc code points and its only Pc code point, the
low line, is already in the start class). -/
def isIdentCont (c : Char) : Bool :=
  isIdentStart c || isAsciiDigit c

/-- The word-character class behind the regex `\b` boundary
(`[\p{Alphabetic}\p{M}\p{Nd}\p{Pc}\p{Join_Control}]`), embedded on the
modelled alphabet: ASCII letters, ASCII digits, the low line, and the
letters of `extraLetters`.  Note that the dollar sign is not a word
character even though it can start an identifier. -/
def isWordChar (c : Char) : Bool :=
  isAsciiUpper c || isAsciiLower c || isAsciiDigit c || c == '_' ||
    extraLetters.contains c

/-- The keyword list of the `keyword` branch of `BASIC_TOKEN_RE`, in the
order of the alternation in the source. -/
def keywords : List String :=
  ["async", "await", "break", "case", "catch", "class", "continue",
   "debugger", "default", "delete", "do", "else", "export", "extends",
   "finally", "for", "function", "if", "import", "instanceof", "in",
   "let", "new", "null", "return", "static", "super", "switch", "this",
   "throw", "true", "try", "typeof", "var", "void", "while", "with"]

/-- Body scan of the block comment branch `/\*.*?\*/`.  The dot does not
match a line feed and the repetition is non-greedy, so the branch matches
up to and including the first `*/` on the same line, and fails when a
line feed or the end of input comes first.  Returns the number of
characters consumed, including the closing `*/`. -/
def blockBody : List Char → Option Nat
  | '*' :: '/' :: _ => some 2
  | c :: rest => if c = '\n' then none else (blockBody rest).map (· + 1)
  | [] => none

/-- The comment branch of `BASIC_TOKEN_RE`: a line comment `//.*?$` runs to
the character before the next line feed (or the end of input), a block
comment `/\*.*?\*/` must close on the same line.  Returns the match
length in characters. -/
def matchComment : List Char → Option Nat
  | '/' :: '/' :: rest => some (2 + (rest.takeWhile (· ≠ '\n')).length)
  | '/' :: '*' :: rest => (blockBody rest).map (· + 2)
  | _ => none

/-- The whitespace branch `\s+`: a greedy, non-empty run of White_Space
characters. -/
def matchWhitespace (s : List Char) : Option Nat :=
  let n := (s.takeWhile isWhitespaceChar).length
  if n = 0 then none else some n

/-- Body scan of the string branch after an opening quote `q`: characters
other than the quote and the backslash pass through (including line
feeds, since a negated character class matches them), a backslash must be
followed by a character other than a line feed (the dot of the escape
does not match one), and the body ends at the first unescaped closing
quote.  Returns the number of characters consumed, including the closing
quote. -/
def stringBody (q : Char) : List Char → Option Nat
  | [] => none
  | c :: rest =>
    if c = q then some 1
    else if c = '\\' then
      match rest with
      | [] => none
      | d :: rest2 => if d = '\n' then none else (stringBody q rest2).map (· + 2)
    else (stringBody q rest).map (· + 1)

/-- The string branch of `BASIC_TOKEN_RE`: a single-quoted, double-quoted
or backtick-delimited literal with backslash escapes. -/
def matchString (s : List Char) : Option Nat :=
  match s with
  | c :: rest =>
    if c = '\'' || c = '"' || c = Char.ofNat 0x60 then
      (stringBody c rest).map (· + 1)
    else none
  | [] => none

/-- The regex_op branch `\\/|/`: an escaped slash or a lone slash. -/
def matchRegexOp (s : List Char) : Option Nat :=
  match s with
  | a :: b :: _ =>
    if a = '\\' && b = '/' then some 2 else if a = '/' then some 1 else none
  | a :: [] => if a = '/' then some 1 else none
  | [] => none

/-- Keyword lookup at the current position: the first keyword of the
alternation that is a text prefix here and is followed by a non-word
character (the trailing `\b`).  At most one keyword can satisfy both
conditions at a given position, so the order of the list is immaterial
to the result. -/
def keywordAt (s : List Char) : Option Nat :=
  (keywords.find? fun kw =>
    kw.data.isPrefixOf s &&
      (match s.drop kw.data.length with
       | [] => true
       | c :: _ => !isWordChar c)).map (fun kw => kw.data.length)

/-- The keyword branch `\b(?:async|await|...)\b`: the leading `\b` requires
the previous haystack character, when there is one, not to be a word
character (every keyword starts with a letter, which is a word
character). -/
def matchKeyword (prev : Option Char) (s : List Char) : Option Nat :=
  match prev with
  | some p => if isWordChar p then none else keywordAt s
  | none => keywordAt s

/-- The ident branch: an identifier start character followed by a greedy
run of identifier continuation characters. -/
def matchIdent : List Char → Option Nat
  | c :: rest =>
    if isIdentStart c then some (1 + (rest.takeWhile isIdentCont).length)
    else none
  | [] => none

/-- The named capture groups of `BASIC_TOKEN_RE`, in alternation order. -/
inductive TokenKind where
  | comment
  | whitespace
  | strLit
  | regexOp
  | keyword
  | ident
deriving DecidableEq, Repr

/-- One attempt of `BASIC_TOKEN_RE` at a fixed position: the branches are
tried in the order of the alternation and the first that matches wins
(leftmost-first semantics of the Rust regex crate).  `prev` is the
haystack character immediately before the position, used by the `\b` of
the keyword branch. -/
def tryToken (prev : Option Char) (s : List Char) : Option (TokenKind × Nat) :=
  match matchComment s with
  | some n => some (TokenKind.comment, n)
  | none =>
    match matchWhitespace s with
    | some n => some (TokenKind.whitespace, n)
    | none =>
      match matchString s with
      | some n => some (TokenKind.strLit, n)
      | none =>
        match matchRegexOp s with
        | some n => some (TokenKind.regexOp, n)
        | none =>
          match matchKeyword prev s with
          | some n => some (TokenKind.keyword, n)
          | none =>
            match matchIdent s with
            | some n => some (TokenKind.ident, n)
            | none => none

/-- Fuelled worker for `scanTokens`.  Every successful `tryToken` consumes
at least one character (no branch of the alternation matches the empty
string), so a fuel equal to the length of the remaining text never runs
out; the fuel only makes the recursion structural. -/
def scanTokensAux : Nat → Option Char → List Char → List (TokenKind × List Char)
  | 0, _, _ => []
  | _ + 1, _, [] => []
  | fuel + 1, prev, c :: rest =>
    match tryToken prev (c :: rest) with
    | some (k, n + 1) =>
      let tok := List.take (n + 1) (c :: rest)
      (k, tok) :: scanTokensAux fuel tok.getLast? (List.drop n rest)
    | _ => scanTokensAux fuel (some c) rest

/-- The `find_iter` loop of `BASIC_TOKEN_RE` over the text: successive
non-overlapping matches, each search resuming at the end of the previous
match, with positions where no branch matches skipped one character at a
time.  Each match is returned with the branch that produced it. -/
def scanTokens (prev : Option Char) (s : List Char) : List (TokenKind × List Char) :=
  scanTokensAux s.length prev s

/-- The unanchored `IDENT_RE.is_match` re-test: the Rust `is_match` looks
for a match anywhere in the haystack, and since the identifier pattern is
a start character followed by a starred continuation class, it matches
somewhere in `s` exactly when `s` contains an identifier start
character. -/
def identReIsMatch (s : List Char) : Bool :=
  s.any isIdentStart

/-- The byte length `m.end() - m.start()` of a match, i.e. the sum of the
UTF-8 sizes of its characters. -/
def byteLength (s : List Char) : Nat :=
  (s.map Char.utf8Size).sum

/-- State of the character loop of `analyze_str`: the accumulated line
lengths, the `space` and `not_space` counters, and the width of the line
being scanned. -/
structure LayoutState where
  line_lengths : List Nat
  space : Nat
  not_space : Nat
  line_width : Nat
deriving Repr, DecidableEq

/-- One iteration of the character loop of `analyze_str`: a tab counts 4
into `space`, any other whitespace counts 1, anything else counts 1 into
`not_space`; then a carriage return is skipped for the shape scan, a line
feed flushes a positive `line_width`, and any other character adds its
visual width (4 for a tab, 1 otherwise) to `line_width`. -/
def layoutStep (st : LayoutState) (c : Char) : LayoutState :=
  let st1 :=
    if c = '\t' then { st with space := st.space + 4 }
    else if isWhitespaceChar c then { st with space := st.space + 1 }
    else { st with not_space := st.not_space + 1 }
  if c = '\r' then st1
  else if c = '\n' then
    if st1.line_width > 0 then
      { st1 with line_lengths := st1.line_lengths ++ [st1.line_width],
                 line_width := 0 }
    else { st1 with line_width := 0 }
  else { st1 with line_width := st1.line_width + (if c = '\t' then 4 else 1) }

/-- The initial loop state of `analyze_str`: `not_space` starts at 1. -/
def initLayout : LayoutState :=
  { line_lengths := [], space := 0, not_space := 1, line_width := 0 }

/-- The layout pass of `analyze_str`: run the character loop, then flush a
final positive `line_width` for input not ended by a line feed. -/
def layoutScan (code : List Char) : LayoutState :=
  let st := code.foldl layoutStep initLayout
  if st.line_width > 0 then
    { st with line_lengths := st.line_lengths ++ [st.line_width] }
  else st

/-- The tokenization pass of `analyze_str`: for every match of
`BASIC_TOKEN_RE`, if the unanchored `IDENT_RE.is_match` re-test succeeds
on the matched text, record the byte length of the match. -/
def identLengthsOf (code : List Char) : List Nat :=
  (scanTokens none code).filterMap fun t =>
    if identReIsMatch t.2 then some (byteLength t.2) else none

/-- Ascending sort, modelling `Vec::sort` on a vector of lengths. -/
def sortNat (l : List Nat) : List Nat :=
  List.insertionSort (· ≤ ·) l

/-- The analysis record produced by `analyze_str` (struct `Analysis` of the
source). -/
structure Analysis where
  line_lengths : List Nat
  ident_lengths : List Nat
  space_count : Nat
  non_space_count : Nat
deriving Repr, DecidableEq

/-- The `analyze_str` entry point: layout pass, tokenization pass, both
length vectors sorted ascending. -/
def analyzeStr (code : String) : Analysis :=
  { line_lengths := sortNat (layoutScan code.data).line_lengths,
    ident_lengths := sortNat (identLengthsOf code.data),
    space_count := (layoutScan code.data).space,
    non_space_count := (layoutScan code.data).not_space }

/-- The generic `partial_clamp(l, u, v)` of the source. -/
def partialClamp {α : Type*} [LinearOrder α] (l u v : α) : α :=
  if v < l then l
  else if v > u then u
  else v

/-- Method `space_to_code_ratio`: whitespace weight over the biased
non-whitespace count. -/
def Analysis.space_to_code_ratio (a : Analysis) : ℚ :=
  (a.space_count : ℚ) / (a.non_space_count : ℚ)

/-- Method `median_ident_length`: guarded by emptiness of `line_lengths`,
then the middle element of `ident_lengths` with default 0. -/
def Analysis.median_ident_length (a : Analysis) : Nat :=
  if a.line_lengths.isEmpty then 0
  else a.ident_lengths.getD (a.ident_lengths.length / 2) 0

/-- Method `longest_line`: the last element of the sorted `line_lengths`,
or 0 when empty. -/
def Analysis.longest_line (a : Analysis) : Nat :=
  if a.line_lengths.isEmpty then 0
  else a.line_lengths.getD (a.line_lengths.length - 1) 0

/-- Method `shape`: the line count over the line length at index
`len / 4 * 3` (integer division by 4 first, then multiplication by 3,
exactly as the source writes it), or 0 when `line_lengths` is empty.
The direct index of the source is modelled with a default of 0; the
in-bounds property is proved separately. -/
def Analysis.shape (a : Analysis) : ℚ :=
  if a.line_lengths.isEmpty then 0
  else
    (a.line_lengths.length : ℚ) /
      ((a.line_lengths.getD (a.line_lengths.length / 4 * 3) 0 : Nat) : ℚ)

/-- The scoring formula of `minified_probability`, as a function of the
four metrics it reads. -/
def minifiedProbabilityFrom (ratio : ℚ) (median : Nat) (shp : ℚ) (longest : Nat) : ℚ :=
  let p_space := (0.5 - partialClamp 0 0.5 ratio) * 2
  let p_name := ((5 - (partialClamp 1 6 median - 1) : Nat) : ℚ) / 5
  let p_shape := (20 - partialClamp 0 20 shp) / 20
  let p_line := ((partialClamp 0 1000 longest : Nat) : ℚ) / 1000
  p_space * 0.1 + p_name * 0.4 + p_shape * 0.2 + p_line * 0.3

/-- Method `minified_probability`: the weighted sum of the four clamped
sub-terms. -/
def Analysis.minified_probability (a : Analysis) : ℚ :=
  minifiedProbabilityFrom a.space_to_code_ratio a.median_ident_length
    a.shape a.longest_line

/-- Method `is_likely_minified`: strict threshold at one half. -/
def Analysis.is_likely_minified (a : Analysis) : Bool :=
  a.minified_probability > 0.5

/-- Modelled from the spec: the shape formula exactly as claim C2 words it,
with the 75th-percentile index computed as the integer division
`len * 3 / 4` instead of the `len / 4 * 3` that the source writes.  This
definition exists only to be compared against `Analysis.shape`. -/
def shapeClaimC2 (a : Analysis) : ℚ :=
  if a.line_lengths.isEmpty then 0
  else
    (a.line_lengths.length : ℚ) /
      ((a.line_lengths.getD (a.line_lengths.length * 3 / 4) 0 : Nat) : ℚ)

/-!
Supporting lemmas about the tokenizer branches.
-/

/-- A White_Space character is never an identifier start character. -/
theorem whitespace_not_identStart {c : Char} (h : isWhitespaceChar c = true) :
    isIdentStart c = false := by
  rw [Bool.eq_false_iff]
  intro hid
  simp only [isIdentStart, extraLetters, Bool.or_eq_true, List.contains_cons,
    List.contains_nil, Bool.or_false, beq_iff_eq, decide_eq_true_eq] at hid
  rcases hid with (((hu | hl) | h1) | h2) | (h3 | h4)
  · simp only [isAsciiUpper, Bool.and_eq_true, decide_eq_true_eq] at hu
    simp only [isWhitespaceChar, Bool.or_eq_true, Bool.and_eq_true,
      decide_eq_true_eq, beq_iff_eq] at h
    omega
  · simp only [isAsciiLower, Bool.and_eq_true, decide_eq_true_eq] at hl
    simp only [isWhitespaceChar, Bool.or_eq_true, Bool.and_eq_true,
      decide_eq_true_eq, beq_iff_eq] at h
    omega
  · subst h1; exact absurd h (by decide)
  · subst h2; exact absurd h (by decide)
  · subst h3; exact absurd h (by decide)
  · subst h4; exact absurd h (by decide)

/-- Every character of a whitespace-branch match is White_Space. -/
theorem matchWhitespace_chars {s : List Char} {n : Nat}
    (h : matchWhitespace s = some n) :
    ∀ c ∈ List.take n s, isWhitespaceChar c = true := by
  unfold matchWhitespace at h
  by_cases h0 : (s.takeWhile isWhitespaceChar).length = 0
  · simp [h0] at h
  · rw [if_neg h0] at h
    obtain rfl : (s.takeWhile isWhitespaceChar).length = n := Option.some.inj h
    intro c hc
    rw [← List.prefix_iff_eq_take.mp (List.takeWhile_prefix isWhitespaceChar)] at hc
    exact List.mem_takeWhile_imp hc

/-- A regex_op-branch match is a lone slash or an escaped slash. -/
theorem matchRegexOp_take {s : List Char} {n : Nat}
    (h : matchRegexOp s = some n) :
    List.take n s = ['/'] ∨ List.take n s = ['\\', '/'] := by
  match s with
  | [] => simp [matchRegexOp] at h
  | [a] =>
    simp only [matchRegexOp] at h
    split_ifs at h with ha
    obtain rfl : (1 : Nat) = n := Option.some.inj h
    subst ha
    exact Or.inl rfl
  | a :: b :: rest =>
    simp only [matchRegexOp] at h
    split_ifs at h with hab ha
    · simp only [Bool.and_eq_true, decide_eq_true_eq] at hab
      obtain rfl : (2 : Nat) = n := Option.some.inj h
      rw [hab.1, hab.2]
      exact Or.inr rfl
    · obtain rfl : (1 : Nat) = n := Option.some.inj h
      subst ha
      exact Or.inl rfl

/-- Every keyword of the alternation passes the unanchored identifier
re-test: each one starts with a lowercase letter. -/
theorem keywords_identRe : ∀ kw ∈ keywords, identReIsMatch kw.data = true := by
  decide

/-- A keyword lookup success returns the length of a keyword of the list
that is a prefix of the text at this position. -/
theorem keywordAt_take {s : List Char} {n : Nat} (h : keywordAt s = some n) :
    ∃ kw ∈ keywords, List.take n s = kw.data := by
  unfold keywordAt at h
  obtain ⟨kw, hfind, hlen⟩ := Option.map_eq_some'.mp h
  refine ⟨kw, List.mem_of_find?_eq_some hfind, ?_⟩
  have hp := List.find?_some hfind
  simp only [Bool.and_eq_true] at hp
  have hpre : kw.data <+: s := List.isPrefixOf_iff_prefix.mp hp.1
  rw [← hlen]
  exact (List.prefix_iff_eq_take.mp hpre).symm

/-- A keyword-branch match is a keyword of the list. -/
theorem matchKeyword_take {prev : Option Char} {s : List Char} {n : Nat}
    (h : matchKeyword prev s = some n) :
    ∃ kw ∈ keywords, List.take n s = kw.data := by
  match prev with
  | none =>
    simp only [matchKeyword] at h
    exact keywordAt_take h
  | some p =>
    simp only [matchKeyword] at h
    split_ifs at h
    exact keywordAt_take h

/-- Case analysis on a successful `tryToken`: the result carries the tag of
the first branch of the alternation that matched. -/
theorem tryToken_eq_some {prev : Option Char} {s : List Char} {k : TokenKind}
    {n : Nat} (h : tryToken prev s = some (k, n)) :
    (k = TokenKind.comment ∧ matchComment s = some n) ∨
    (k = TokenKind.whitespace ∧ matchWhitespace s = some n) ∨
    (k = TokenKind.strLit ∧ matchString s = some n) ∨
    (k = TokenKind.regexOp ∧ matchRegexOp s = some n) ∨
    (k = TokenKind.keyword ∧ matchKeyword prev s = some n) ∨
    (k = TokenKind.ident ∧ matchIdent s = some n) := by
  unfold tryToken at h
  cases h1 : matchComment s with
  | some m => rw [h1] at h; simp only [Option.some.injEq, Prod.mk.injEq] at h
              exact Or.inl ⟨h.1.symm, by rw [h.2]⟩
  | none =>
  rw [h1] at h
  cases h2 : matchWhitespace s with
  | some m => rw [h2] at h; simp only [Option.some.injEq, Prod.mk.injEq] at h
              exact Or.inr (Or.inl ⟨h.1.symm, by rw [h.2]⟩)
  | none =>
  rw [h2] at h
  cases h3 : matchString s with
  | some m => rw [h3] at h; simp only [Option.some.injEq, Prod.mk.injEq] at h
              exact Or.inr (Or.inr (Or.inl ⟨h.1.symm, by rw [h.2]⟩))
  | none =>
  rw [h3] at h
  cases h4 : matchRegexOp s with
  | some m => rw [h4] at h; simp only [Option.some.injEq, Prod.mk.injEq] at h
              exact Or.inr (Or.inr (Or.inr (Or.inl ⟨h.1.symm, by rw [h.2]⟩)))
  | none =>
  rw [h4] at h
  cases h5 : matchKeyword prev s with
  | some m => rw [h5] at h; simp only [Option.some.injEq, Prod.mk.injEq] at h
              exact Or.inr (Or.inr (Or.inr (Or.inr (Or.inl ⟨h.1.symm, by rw [h.2]⟩))))
  | none =>
  rw [h5] at h
  cases h6 : matchIdent s with
  | some m => rw [h6] at h; simp only [Option.some.injEq, Prod.mk.injEq] at h
              exact Or.inr (Or.inr (Or.inr (Or.inr (Or.inr ⟨h.1.symm, by rw [h.2]⟩))))
  | none => rw [h6] at h; cases h

/-- Every token emitted by the scan loop is the take of some successful
`tryToken` attempt, with its tag. -/
theorem mem_scanTokensAux {t : TokenKind × List Char} :
    ∀ (fuel : Nat) (prev : Option Char) (s : List Char),
      t ∈ scanTokensAux fuel prev s →
      ∃ prev2 s2 n, tryToken prev2 s2 = some (t.1, n + 1) ∧
        t.2 = List.take (n + 1) s2
  | 0, _, _, h => by simp [scanTokensAux] at h
  | _ + 1, _, [], h => by simp [scanTokensAux] at h
  | fuel + 1, prev, c :: rest, h => by
    rw [scanTokensAux] at h
    cases htok : tryToken prev (c :: rest) with
    | none =>
      rw [htok] at h
      exact mem_scanTokensAux fuel (some c) rest h
    | some kn =>
      obtain ⟨k, n⟩ := kn
      match n with
      | 0 =>
        rw [htok] at h
        exact mem_scanTokensAux fuel (some c) rest h
      | m + 1 =>
        rw [htok] at h
        rcases List.mem_cons.mp h with h | h
        · refine ⟨prev, c :: rest, m, ?_, ?_⟩
          · rw [htok, h]
          · rw [h]
        · exact mem_scanTokensAux fuel _ _ h

/-- The `not_space` counter never decreases across one loop iteration. -/
theorem layoutStep_not_space_mono (st : LayoutState) (c : Char) :
    st.not_space ≤ (layoutStep st c).not_space := by
  simp only [layoutStep]
  split_ifs <;> simp

/-- The `not_space` counter never decreases across the whole loop. -/
theorem foldl_layoutStep_not_space_mono (l : List Char) :
    ∀ st : LayoutState, st.not_space ≤ (l.foldl layoutStep st).not_space := by
  induction l with
  | nil => intro st; simp
  | cons c cs ih =>
    intro st
    rw [List.foldl_cons]
    exact le_trans (layoutStep_not_space_mono st c) (ih _)

/-- The final flush of `layoutScan` touches only `line_lengths`. -/
theorem layoutScan_not_space (code : List Char) :
    (layoutScan code).not_space = (code.foldl layoutStep initLayout).not_space := by
  simp only [layoutScan]
  split <;> rfl

/-- Clamping into the interval from 1 to 6 lands in that interval. -/
theorem partialClamp_one_six_mem (m : Nat) :
    1 ≤ partialClamp 1 6 m ∧ partialClamp 1 6 m ≤ 6 := by
  unfold partialClamp
  split_ifs <;> omega

/-- Clamping into the interval from 1 to 6 is the identity there. -/
theorem partialClamp_one_six_id {m : Nat} (h1 : 1 ≤ m) (h6 : m ≤ 6) :
    partialClamp 1 6 m = m := by
  unfold partialClamp
  split_ifs <;> omega

/-!
The claims.
-/

/-- Claim C1, counterexample: on the input consisting of the single keyword
`if`, the only match of `BASIC_TOKEN_RE` is produced by the keyword branch,
and it nevertheless contributes the length 2 to `ident_lengths`, because
the unanchored `IDENT_RE.is_match` re-test finds an identifier-shaped
substring inside the keyword.  The claim says a keyword-branch match never
contributes a length. -/
theorem C1_counterexample :
    scanTokens none "if".data = [(TokenKind.keyword, ['i', 'f'])] ∧
    (analyzeStr "if").ident_lengths = [2] := by
  constructor <;> decide

/-- Claim C1, amended: the second-stage re-test is an unanchored substring
search, so it records an entry exactly for the matches that contain an
identifier start character somewhere.  Matches of the whitespace and
regex_op branches never contribute a length, but matches of the keyword
branch always do (and string and comment matches do whenever they contain
a letter, a dollar sign or a low line). -/
theorem C1_amended_guard (code : String) (t : TokenKind × List Char)
    (ht : t ∈ scanTokens none code.data) :
    (t.1 = TokenKind.keyword → identReIsMatch t.2 = true) ∧
    ((t.1 = TokenKind.whitespace ∨ t.1 = TokenKind.regexOp) →
      identReIsMatch t.2 = false) := by
  obtain ⟨prev2, s2, n, htok, hts⟩ := mem_scanTokensAux _ _ _ ht
  rcases tryToken_eq_some htok with ⟨hk, hm⟩ | ⟨hk, hm⟩ | ⟨hk, hm⟩ |
    ⟨hk, hm⟩ | ⟨hk, hm⟩ | ⟨hk, hm⟩
  · constructor
    · intro h
      rw [hk] at h
      cases h
    · intro h
      rcases h with h | h <;> (rw [hk] at h; cases h)
  · constructor
    · intro h
      rw [hk] at h
      cases h
    · intro _
      rw [hts, identReIsMatch, List.any_eq_false]
      intro c hc
      rw [whitespace_not_identStart (matchWhitespace_chars hm c hc)]
      simp
  · constructor
    · intro h
      rw [hk] at h
      cases h
    · intro h
      rcases h with h | h <;> (rw [hk] at h; cases h)
  · constructor
    · intro h
      rw [hk] at h
      cases h
    · intro _
      rcases matchRegexOp_take hm with h | h <;> rw [hts, h] <;> decide
  · constructor
    · intro _
      obtain ⟨kw, hkw, htake⟩ := matchKeyword_take hm
      rw [hts, htake]
      exact keywords_identRe kw hkw
    · intro h
      rcases h with h | h <;> (rw [hk] at h; cases h)
  · constructor
    · intro h
      rw [hk] at h
      cases h
    · intro h
      rcases h with h | h <;> (rw [hk] at h; cases h)

/-- Witness for the amended claim C1, at the concrete input `if`. -/
theorem C1_amended_guard_witness :
    (TokenKind.keyword, ['i', 'f']) ∈ scanTokens none "if".data ∧
    identReIsMatch ['i', 'f'] = true :=
  ⟨by decide,
    (C1_amended_guard "if" (TokenKind.keyword, ['i', 'f']) (by decide)).1 rfl⟩

/-- Claim C2, counterexample: on six lines of widths 1 to 6, the source
divides the line count 6 by the width at index `6 / 4 * 3 = 3`, giving
6 / 4 = 3 / 2, while the index the claim states, `6 * 3 / 4 = 4`, would
give 6 / 5.  The two disagree. -/
theorem C2_counterexample :
    (analyzeStr "a\nbb\nccc\ndddd\neeeee\nffffff\n").shape = 3 / 2 ∧
    shapeClaimC2 (analyzeStr "a\nbb\nccc\ndddd\neeeee\nffffff\n") = 6 / 5 ∧
    (analyzeStr "a\nbb\nccc\ndddd\neeeee\nffffff\n").shape ≠
      shapeClaimC2 (analyzeStr "a\nbb\nccc\ndddd\neeeee\nffffff\n") := by
  have h : analyzeStr "a\nbb\nccc\ndddd\neeeee\nffffff\n" =
      ⟨[1, 2, 3, 4, 5, 6], [1, 2, 3, 4, 5, 6], 6, 22⟩ := by decide
  rw [h]
  refine ⟨?_, ?_, ?_⟩ <;> norm_num [Analysis.shape, shapeClaimC2]

/-- Claim C2, amended: for a non-empty `line_lengths`, `shape` is the total
line count divided by the line width at index `len / 4 * 3` (integer
division by 4 first, then multiplication by 3; this differs from
`len * 3 / 4` whenever `len` is at least 2 more than a multiple of 4),
and `shape` is 0 when `line_lengths` is empty. -/
theorem C2_amended_shape_index (code : String) :
    ((analyzeStr code).line_lengths = [] → (analyzeStr code).shape = 0) ∧
    ((analyzeStr code).line_lengths ≠ [] →
      (analyzeStr code).shape =
        ((analyzeStr code).line_lengths.length : ℚ) /
          (((analyzeStr code).line_lengths.getD
            ((analyzeStr code).line_lengths.length / 4 * 3) 0 : Nat) : ℚ)) := by
  constructor
  · intro h
    simp [Analysis.shape, h]
  · intro h
    rw [Analysis.shape, if_neg]
    simp [List.isEmpty_iff, h]

/-- Witness for the amended claim C2, at a concrete two-line input. -/
theorem C2_amended_shape_index_witness :
    ((analyzeStr "").line_lengths = [] ∧ (analyzeStr "").shape = 0) ∧
    ((analyzeStr "a\nbb\n").line_lengths ≠ [] ∧
      (analyzeStr "a\nbb\n").shape =
        ((analyzeStr "a\nbb\n").line_lengths.length : ℚ) /
          (((analyzeStr "a\nbb\n").line_lengths.getD
            ((analyzeStr "a\nbb\n").line_lengths.length / 4 * 3) 0 : Nat) : ℚ)) :=
  ⟨⟨by decide, (C2_amended_shape_index "").1 (by decide)⟩,
   ⟨by decide, (C2_amended_shape_index "a\nbb\n").2 (by decide)⟩⟩

/-- Claim C3, counterexample: the identifier consisting of the single
character U+00E9 has character count 1, but the recorded length is
`m.end() - m.start()`, a byte distance, namely 2. -/
theorem C3_counterexample :
    (analyzeStr "é").ident_lengths = [2] ∧ "é".data.length = 1 := by
  constructor <;> decide

/-- Claim C3, amended: every entry of `ident_lengths` is the UTF-8 byte
length of a match of `BASIC_TOKEN_RE` that passed the unanchored
identifier re-test; this equals the character count only when the match
is pure ASCII. -/
theorem C3_amended_byte_lengths (code : String) (len : Nat)
    (h : len ∈ (analyzeStr code).ident_lengths) :
    ∃ t ∈ scanTokens none code.data,
      identReIsMatch t.2 = true ∧ len = byteLength t.2 := by
  have h2 : len ∈ identLengthsOf code.data := by
    have hrepr : (analyzeStr code).ident_lengths =
        sortNat (identLengthsOf code.data) := rfl
    rw [hrepr, sortNat] at h
    exact (List.mem_insertionSort _).mp h
  rw [identLengthsOf] at h2
  obtain ⟨t, ht, hft⟩ := List.mem_filterMap.mp h2
  by_cases hg : identReIsMatch t.2 = true
  · rw [if_pos hg] at hft
    exact ⟨t, ht, hg, (Option.some.inj hft).symm⟩
  · rw [if_neg hg] at hft
    cases hft

/-- Witness for the amended claim C3, at the concrete input U+00E9. -/
theorem C3_amended_byte_lengths_witness :
    2 ∈ (analyzeStr "é").ident_lengths ∧
    ∃ t ∈ scanTokens none "é".data,
      identReIsMatch t.2 = true ∧ 2 = byteLength t.2 :=
  ⟨by decide, C3_amended_byte_lengths "é" 2 (by decide)⟩

/-- Claim C4: every metric is total.  In this embedding all functions are
total by construction; the conditions the source relies on to avoid
panics hold: the direct index `len / 4 * 3` of `shape` is in bounds
whenever `line_lengths` is non-empty, the divisor `non_space_count` of
`space_to_code_ratio` is never zero, and the two unsigned subtractions of
`minified_probability` never underflow because the clamp bounds the
median into the interval from 1 to 6. -/
theorem C4_total_no_panic (code : String) :
    ((analyzeStr code).line_lengths ≠ [] →
      (analyzeStr code).line_lengths.length / 4 * 3 <
        (analyzeStr code).line_lengths.length) ∧
    (analyzeStr code).non_space_count ≠ 0 ∧
    1 ≤ partialClamp 1 6 (analyzeStr code).median_ident_length ∧
    partialClamp 1 6 (analyzeStr code).median_ident_length - 1 ≤ 5 := by
  refine ⟨?_, ?_, ?_, ?_⟩
  · intro hne
    have hpos : 0 < (analyzeStr code).line_lengths.length :=
      List.length_pos.mpr hne
    omega
  · have h1 : 1 ≤ (analyzeStr code).non_space_count := by
      have h := foldl_layoutStep_not_space_mono code.data initLayout
      have h2 : (analyzeStr code).non_space_count =
          (code.data.foldl layoutStep initLayout).not_space :=
        layoutScan_not_space code.data
      rw [h2]
      exact h
    omega
  · exact (partialClamp_one_six_mem _).1
  · have := partialClamp_one_six_mem (analyzeStr code).median_ident_length
    omega

/-- Witness for claim C4, at the concrete input `a`. -/
theorem C4_total_no_panic_witness :
    (analyzeStr "a").line_lengths ≠ [] ∧
    (analyzeStr "a").line_lengths.length / 4 * 3 <
      (analyzeStr "a").line_lengths.length :=
  ⟨by decide, (C4_total_no_panic "a").1 (by decide)⟩

/-- Claim C5: `median_ident_length` is guarded by emptiness of
`line_lengths`, not of `ident_lengths`; when `line_lengths` is non-empty
it returns the element of `ident_lengths` at index `len / 2`, with
default 0 when that index is out of bounds. -/
theorem C5_median_guard (code : String) :
    ((analyzeStr code).line_lengths = [] →
      (analyzeStr code).median_ident_length = 0) ∧
    ((analyzeStr code).line_lengths ≠ [] →
      (analyzeStr code).median_ident_length =
        (analyzeStr code).ident_lengths.getD
          ((analyzeStr code).ident_lengths.length / 2) 0) := by
  constructor
  · intro h
    simp [Analysis.median_ident_length, h]
  · intro h
    rw [Analysis.median_ident_length, if_neg]
    simp [List.isEmpty_iff, h]

/-- Witness for claim C5: the empty input takes the guard branch, and the
input `42`, which has a line but no identifier token, takes the lookup
branch where the empty `ident_lengths` defaults to 0. -/
theorem C5_median_guard_witness :
    ((analyzeStr "").line_lengths = [] ∧
      (analyzeStr "").median_ident_length = 0) ∧
    ((analyzeStr "42").line_lengths ≠ [] ∧
      (analyzeStr "42").median_ident_length =
        (analyzeStr "42").ident_lengths.getD
          ((analyzeStr "42").ident_lengths.length / 2) 0) :=
  ⟨⟨by decide, (C5_median_guard "").1 (by decide)⟩,
   ⟨by decide, (C5_median_guard "42").2 (by decide)⟩⟩

/-- Claim C6: on the empty input the probability is exactly 7 / 10 in the
rational model of the `f32` arithmetic (the p_space, p_name and p_shape
sub-terms each attain 1 while p_line is 0), which exceeds the 1 / 2
threshold, so `is_likely_minified` returns true. -/
theorem C6_empty_probability :
    (analyzeStr "").minified_probability = 7 / 10 ∧
    (analyzeStr "").is_likely_minified = true := by
  have h : analyzeStr "" = ⟨[], [], 0, 1⟩ := by decide
  constructor
  · rw [h]
    norm_num [Analysis.minified_probability, minifiedProbabilityFrom,
      Analysis.space_to_code_ratio, Analysis.median_ident_length,
      Analysis.longest_line, Analysis.shape, partialClamp]
  · rw [h]
    simp only [Analysis.is_likely_minified, decide_eq_true_eq]
    norm_num [Analysis.minified_probability, minifiedProbabilityFrom,
      Analysis.space_to_code_ratio, Analysis.median_ident_length,
      Analysis.longest_line, Analysis.shape, partialClamp]

/-- Claim C7: the empty input yields empty `line_lengths` and
`ident_lengths`, `space_count` 0 and `non_space_count` 1 (the bias
constant), and the four metrics evaluate to 0. -/
theorem C7_empty_analysis :
    (analyzeStr "").line_lengths = [] ∧
    (analyzeStr "").ident_lengths = [] ∧
    (analyzeStr "").space_count = 0 ∧
    (analyzeStr "").non_space_count = 1 ∧
    (analyzeStr "").space_to_code_ratio = 0 ∧
    (analyzeStr "").median_ident_length = 0 ∧
    (analyzeStr "").longest_line = 0 ∧
    (analyzeStr "").shape = 0 := by
  have h : analyzeStr "" = ⟨[], [], 0, 1⟩ := by decide
  rw [h]
  refine ⟨rfl, rfl, rfl, rfl, ?_, by decide, by decide, ?_⟩
  · norm_num [Analysis.space_to_code_ratio]
  · norm_num [Analysis.shape]

/-- Claim C8: both sequences of the result are sorted ascending.  In this
functional embedding the metrics are pure functions of the result value,
so the sequences can never be mutated afterwards; the sortedness
established here therefore holds for the lifetime of the result. -/
theorem C8_sorted_invariant (code : String) :
    List.Sorted (· ≤ ·) (analyzeStr code).line_lengths ∧
    List.Sorted (· ≤ ·) (analyzeStr code).ident_lengths :=
  ⟨List.sorted_insertionSort _ _, List.sorted_insertionSort _ _⟩

/-- Claim C9: the biased `not_space` counter starts at 1 and never
decreases, so the result satisfies `non_space_count ≥ 1`; `space_count`
is a natural number, hence at least 0. -/
theorem C9_counts_invariant (code : String) :
    1 ≤ (analyzeStr code).non_space_count ∧
    0 ≤ (analyzeStr code).space_count := by
  constructor
  · have h := foldl_layoutStep_not_space_mono code.data initLayout
    have h2 : (analyzeStr code).non_space_count =
        (code.data.foldl layoutStep initLayout).not_space :=
      layoutScan_not_space code.data
    rw [h2]
    exact h
  · exact Nat.zero_le _

/-- Claim C10: with the ratio, shape and longest-line inputs held fixed,
the scoring formula is monotonic non-increasing in the median identifier
length over the interval from 1 to 6: there the clamp is the identity and
the p_name sub-term is (6 - median) / 5, so a larger median can only
lower the weighted sum. -/
theorem C10_monotone_median (ratio shp : ℚ) (longest m1 m2 : Nat)
    (h1 : 1 ≤ m1) (h12 : m1 ≤ m2) (h2 : m2 ≤ 6) :
    minifiedProbabilityFrom ratio m2 shp longest ≤
      minifiedProbabilityFrom ratio m1 shp longest := by
  simp only [minifiedProbabilityFrom]
  rw [partialClamp_one_six_id (le_trans h1 h12) h2,
    partialClamp_one_six_id h1 (le_trans h12 h2)]
  have hnat : 5 - (m2 - 1) ≤ 5 - (m1 - 1) := by omega
  have hq : ((5 - (m2 - 1) : Nat) : ℚ) ≤ ((5 - (m1 - 1) : Nat) : ℚ) :=
    Nat.cast_le.mpr hnat
  gcongr

/-- Witness for claim C10, comparing medians 2 and 5 with the other three
metrics fixed at 0. -/
theorem C10_monotone_median_witness :
    (1 ≤ 2 ∧ 2 ≤ 5 ∧ 5 ≤ 6) ∧
    minifiedProbabilityFrom 0 5 0 0 ≤ minifiedProbabilityFrom 0 2 0 0 :=
  ⟨⟨by norm_num, by norm_num, by norm_num⟩,
    C10_monotone_median 0 0 0 2 5 (by norm_num) (by norm_num) (by norm_num)⟩

end MightBeMinified
